import Mathlib

/-!
Shallow embedding of `interactions/ext/paginator/paginator.py` (the
`dinteractions-Paginator` extension): the `Page` construction with its
derived title, the control renderer (`select_row`, `buttons_row`,
`page_row`, `components`), the render diff (`Converter.difference` /
`component_change`), the dispatch logic (`component_logic`), one
iteration of the `run` loop with its pre/post hooks, and the
termination handler (`disabled_components`, `removed_components`,
`end_paginator`).

Python `int` is modelled as `Int`, strings as `String` (both index by
characters, like Python slices), dicts serialized through the
`DictSerializerMixin` `_json` attribute as association lists
`List (String × FieldVal)` where a key is present exactly when the
corresponding attribute was supplied or assigned.
-/

namespace PaginatorModel

/-- Python list indexing `l[i]`: non-negative indices from the front,
negative indices from the back, `none` models an `IndexError`. -/
def pyGet {α : Type} (l : List α) (i : Int) : Option α :=
  let j : Int := if i < 0 then (l.length : Int) + i else i
  if 0 ≤ j then l.get? j.toNat else none

/-- Python truthiness of an `Optional[str]`: `None` and `""` are falsy. -/
def optTruthy : Option String → Bool
  | none => false
  | some s => !s.isEmpty

/-- `interactions.Emoji`, reduced to the only field the paginator sets. -/
structure Emoji where
  name : String
deriving DecidableEq, Repr

/-- A value stored in a serialized `_json` dict. -/
inductive FieldVal
  | str (s : String)
  | int (n : Int)
  | bool (b : Bool)
  | opts (os : List (String × Int))
deriving DecidableEq, Repr

/-- `interactions.Button`: a field is `some` exactly when the attribute
was supplied to the constructor or assigned later, which is exactly when
`_json` carries the corresponding key. -/
structure Button where
  style : Option Int := none
  label : Option String := none
  emoji : Option Emoji := none
  custom_id : Option String := none
  disabled : Option Bool := none
deriving DecidableEq, Repr

/-- `interactions.SelectOption` with the two fields the paginator sets. -/
structure SelectOption where
  label : String
  value : Int
deriving DecidableEq, Repr

/-- `interactions.SelectMenu` with the fields the paginator sets. -/
structure SelectMenu where
  options : List SelectOption
  custom_id : String
  placeholder : String
  min_values : Int
  max_values : Int
  disabled : Option Bool := none
deriving DecidableEq, Repr

/-- A leaf component of an action row. -/
inductive Component
  | button (b : Button)
  | select (s : SelectMenu)
deriving DecidableEq, Repr

/-- `interactions.ActionRow`. -/
structure ActionRow where
  components : List Component
deriving DecidableEq, Repr

/-- The `_json` dict of a `Button` (keys present iff the field is set). -/
def Button.json (b : Button) : List (String × FieldVal) :=
  (match b.style with | some v => [("style", FieldVal.int v)] | none => [])
  ++ (match b.label with | some v => [("label", FieldVal.str v)] | none => [])
  ++ (match b.emoji with | some e => [("emoji", FieldVal.str e.name)] | none => [])
  ++ (match b.custom_id with | some v => [("custom_id", FieldVal.str v)] | none => [])
  ++ (match b.disabled with | some v => [("disabled", FieldVal.bool v)] | none => [])

/-- The `_json` dict of a `SelectMenu`. -/
def SelectMenu.json (s : SelectMenu) : List (String × FieldVal) :=
  [("options", FieldVal.opts (s.options.map fun o => (o.label, o.value))),
   ("custom_id", FieldVal.str s.custom_id),
   ("placeholder", FieldVal.str s.placeholder),
   ("min_values", FieldVal.int s.min_values),
   ("max_values", FieldVal.int s.max_values)]
  ++ (match s.disabled with | some v => [("disabled", FieldVal.bool v)] | none => [])

/-- The `_json` dict of a leaf component. -/
def Component.json : Component → List (String × FieldVal)
  | Component.button b => b.json
  | Component.select s => s.json

/-- The `custom_id` attribute of a leaf component (`None` when unset). -/
def Component.customId : Component → Option String
  | Component.button b => b.custom_id
  | Component.select s => some s.custom_id

/-- `RowPosition` enum. -/
inductive RowPosition
  | top
  | middle
  | bottom
deriving DecidableEq, Repr

/-- The truncation applied in `Page.__init__`:
`f"\x7bs[:93]\x7d..." if len(s) > 96 else s`. -/
def truncate (s : String) : String :=
  if s.length > 96 then String.mk (s.data.take 93) ++ "..." else s

/-- `interactions.Embed`, reduced to its `title` attribute. -/
structure Embed where
  title : Option String := none
deriving DecidableEq, Repr

/-- The `embeds` argument of `Page.__init__`: `None`, one `Embed`, or a
list of `Embed`s. -/
inductive EmbedsArg
  | noEmbeds
  | one (e : Embed)
  | many (es : List Embed)
deriving DecidableEq, Repr

/-- The generator fallback in `Page.__init__` for a list of embeds:
first embed with a truthy title, truncated; default `"No title"`. -/
def firstEmbedTitle : List Embed → String
  | [] => "No title"
  | e :: es =>
      match e.title with
      | some t => if !t.isEmpty then truncate t else firstEmbedTitle es
      | none => firstEmbedTitle es

/-- The `_title` computation of `Page.__init__`, clause by clause. -/
def deriveTitle (title content : Option String) (embeds : EmbedsArg) : String :=
  if optTruthy title then title.getD ""
  else if optTruthy content then truncate (content.getD "")
  else
    match embeds with
    | EmbedsArg.noEmbeds => "No title"
    | EmbedsArg.one e =>
        if optTruthy e.title then truncate (e.title.getD "") else "No title"
    | EmbedsArg.many es =>
        match es with
        | [] => "No title"
        | e0 :: _ =>
            if optTruthy e0.title then firstEmbedTitle es else "No title"

/-- An inbound `ComponentContext`, reduced to the data the paginator
reads: `ctx.data.custom_id`, `ctx.data.values` (already through `int()`),
and the originating user id. -/
structure Event where
  custom_id : String
  values : List Int := []
  userId : Nat := 0

/-- `Page`: content unit plus derived title.  The callback is modelled
as a function from the inbound event to the optional index it returns. -/
structure Page where
  content : Option String := none
  embeds : EmbedsArg := EmbedsArg.noEmbeds
  title : String := "No title"
  components : Option ActionRow := none
  callback : Option (Event → Option Int) := none
  position : RowPosition := RowPosition.top

/-- `Page.__init__`: derives the title per the cascade and stores the
remaining attributes unchanged. -/
def Page.make (content : Option String := none)
    (embeds : EmbedsArg := EmbedsArg.noEmbeds)
    (title : Option String := none)
    (components : Option ActionRow := none)
    (callback : Option (Event → Option Int) := none)
    (position : RowPosition := RowPosition.top) : Page :=
  { content := content
    embeds := embeds
    title := deriveTitle title content embeds
    components := components
    callback := callback
    position := position }

/-- `Page.run_callback`: returns `None` when the page has no callback or
no custom components, or when the event's `custom_id` matches none of
the page's own components; otherwise the callback's result. -/
def Page.run_callback (pg : Page) (ev : Event) : Option Int :=
  match pg.callback with
  | none => none
  | some f =>
      match pg.components with
      | none => none
      | some row =>
          if row.components.all (fun c => c.customId ≠ some ev.custom_id) then none
          else f ev

/-- The mutable and configured state of a `Paginator` instance.  Hooks and
the session-level custom callback are modelled as functions from the
inbound event to their returned value; the outbound message is reduced
to the control tree it currently displays (`none` = no message yet). -/
structure Paginator where
  pages : List Page
  author_only : Bool := false
  use_buttons : Bool := true
  use_select : Bool := true
  use_index : Bool := false
  extended_buttons : Bool := true
  buttons : List (String × Button) := []
  custom_buttons : Option (List Button) := none
  custom_callback : Option (Event → Option Int) := none
  placeholder : String := "Page"
  disable_after_timeout : Bool := true
  remove_after_timeout : Bool := false
  id : Nat := 0
  component_ctx : Option Event := none
  index : Int := 0
  prev_index : Int := 0
  top : Int := 0
  msgComponents : Option (List ActionRow) := none

/-- `dict.get(key, default)` on the per-role button override dict. -/
def dictGet (d : List (String × Button)) (key : String) (default : Button) : Button :=
  match d.find? (fun kv => kv.1 = key) with
  | some kv => kv.2
  | none => default

/-- The `custom_ids` property:
`[f"select\x7bid\x7d", f"first\x7bid\x7d", f"prev\x7bid\x7d", f"index\x7bid\x7d", f"next\x7bid\x7d", f"last\x7bid\x7d"]`. -/
def Paginator.custom_ids (p : Paginator) : List String :=
  ["select" ++ toString p.id,
   "first" ++ toString p.id,
   "prev" ++ toString p.id,
   "index" ++ toString p.id,
   "next" ++ toString p.id,
   "last" ++ toString p.id]

/-- The placeholder text `f"\x7bplaceholder\x7d \x7bindex + 1\x7d/\x7btop + 1\x7d"`. -/
def Paginator.placeholderText (p : Paginator) : String :=
  p.placeholder ++ " " ++ toString (p.index + 1) ++ "/" ++ toString (p.top + 1)

/-- `Paginator.page_row`: the current page's own custom components. -/
def Paginator.page_row (p : Paginator) : Option ActionRow :=
  (pyGet p.pages p.index).bind Page.components

/-- `Paginator.select_row`: `None` unless select is enabled and there
are at most 25 pages; one option per page labeled
`f"\x7bpage_num\x7d: \x7btitle\x7d"` with 1-based value. -/
def Paginator.select_row (p : Paginator) : Option ActionRow :=
  if !p.use_select || p.pages.length > 25 then none
  else
    let select_options :=
      (List.enumFrom 1 p.pages).map fun pr =>
        SelectOption.mk (toString pr.1 ++ ": " ++ pr.2.title) (pr.1 : Int)
    some (ActionRow.mk [Component.select
      { options := select_options
        custom_id := "select" ++ toString p.id
        placeholder := p.placeholderText
        min_values := 1
        max_values := 1 }])

/-- The default `Button` objects in `buttons_row`. -/
def defaultButton (emojiName : String) : Button :=
  { style := some 1, emoji := some (Emoji.mk emojiName) }

/-- The in-place mutation applied to slot `i` of the five-slot button
list: overwrite `custom_id` with `custom_ids[i+1]`, overwrite `disabled`
(left slots by `index == 0`, the index pseudo-button always, right slots
by `index == top`), and overwrite the index pseudo-button's label. -/
def Paginator.updButton (p : Paginator) (i : Nat) (b : Button) : Button :=
  let cids := p.custom_ids
  let cid := (cids.get? (i + 1)).getD ""
  let b1 : Button := { b with custom_id := some cid }
  let d : Bool :=
    if cid = (cids.get? 1).getD "" ∨ cid = (cids.get? 2).getD "" then p.index == 0
    else if cid = (cids.get? 3).getD "" then true
    else p.index == p.top
  let b2 : Button := { b1 with disabled := some d }
  if cid = (cids.get? 3).getD "" then { b2 with label := some p.placeholderText }
  else b2

/-- The navigation buttons of `buttons_row`: the five optional slots
(`first?`, `prev`, `index?`, `next`, `last?`), each taken from the
per-role override dict or the default, then mutated by `updButton`,
with empty slots filtered out. -/
def Paginator.navButtons (p : Paginator) : List Button :=
  let slots : List (Option Button) :=
    [if p.extended_buttons then some (dictGet p.buttons "first" (defaultButton "⏮️")) else none,
     some (dictGet p.buttons "prev" (defaultButton "◀️")),
     if p.use_index then
       some (dictGet p.buttons "index" { style := some 1, label := some p.placeholderText })
     else none,
     some (dictGet p.buttons "next" (defaultButton "▶️")),
     if p.extended_buttons then some (dictGet p.buttons "last" (defaultButton "⏭️")) else none]
  (slots.enum.map fun pr => pr.2.map (p.updButton pr.1)).filterMap (fun x => x)

/-- `Paginator.buttons_row`: `None` unless buttons are enabled; the
navigation buttons, with the custom extra buttons appended only when
they exist, are non-empty, and the total count stays within 5. -/
def Paginator.buttons_row (p : Paginator) : Option ActionRow :=
  if !p.use_buttons then none
  else
    let navs := p.navButtons
    let all :=
      match p.custom_buttons with
      | some cbs =>
          if cbs ≠ [] ∧ cbs.length + navs.length ≤ 5 then navs ++ cbs else navs
      | none => navs
    some (ActionRow.mk (all.map Component.button))

/-- `Paginator.components`: `[select_row, buttons_row]` with the page's
own row inserted at position 0 (`TOP`), 1 (`MIDDLE`) or appended
(`BOTTOM`), `None` rows filtered out. -/
def Paginator.components (p : Paginator) : List ActionRow :=
  let base : List (Option ActionRow) := [p.select_row, p.buttons_row]
  let rows : List (Option ActionRow) :=
    match p.page_row with
    | none => base
    | some row =>
        match (pyGet p.pages p.index).map Page.position with
        | some RowPosition.top => some row :: base
        | some RowPosition.middle => [p.select_row, some row, p.buttons_row]
        | some RowPosition.bottom => base ++ [some row]
        | none => base
  rows.filterMap (fun x => x)

/-- Python truthiness of the page callback's `Optional[int]` result:
`None`, `False` and `0` are falsy. -/
def resFalsy : Option Int → Bool
  | none => true
  | some k => k == 0

/-- `res in range(len(pages))` for `res : Optional[int]`. -/
def resInRange (res : Option Int) (n : Nat) : Bool :=
  match res with
  | none => false
  | some k => 0 ≤ k && k < (n : Int)

/-- `Paginator.component_logic`: resolve `component_ctx.data.custom_id`
against `select`/`first`/`prev`/`next`/`last`, else fall back to the
current page's callback and then (when the page result is falsy) to the
session-level custom callback, each adopted only when
`res in range(len(pages))`. -/
def Paginator.component_logic (p : Paginator) : Paginator :=
  match p.component_ctx with
  | none => p
  | some ev =>
      let cid := ev.custom_id
      if cid = "select" ++ toString p.id then
        match ev.values with
        | v :: _ => { p with index := v - 1 }
        | [] => p
      else if cid = "first" ++ toString p.id then { p with index := 0 }
      else if cid = "prev" ++ toString p.id then { p with index := max (p.index - 1) 0 }
      else if cid = "next" ++ toString p.id then { p with index := min (p.index + 1) p.top }
      else if cid = "last" ++ toString p.id then { p with index := p.top }
      else
        match pyGet p.pages p.index with
        | none => p
        | some pg =>
            let res := pg.run_callback ev
            let p1 := if resInRange res p.pages.length then { p with index := res.getD 0 } else p
            match p.custom_callback with
            | some f =>
                if resFalsy res then
                  let res2 := f ev
                  if resInRange res2 p.pages.length then { p1 with index := res2.getD 0 }
                  else p1
                else p1
            | none => p1

/-- The assignment `self.component_ctx = ctx` performed by the `run`
loop when an inbound event arrives. -/
def Paginator.withCtx (p : Paginator) (ev : Event) : Paginator :=
  { p with component_ctx := some ev }

/-- `Converter.difference` as overridden by the paginator module:
`[\x7bkey: val\x7d for key, val in obj2.items() if key not in obj1]` —
only keys of the new dict absent from the old dict, values never
compared. -/
def difference (obj1 obj2 : List (String × FieldVal)) : List (String × FieldVal) :=
  obj2.filter fun kv => !(obj1.map Prod.fst).contains kv.1

/-- The flattened leaf dicts of a list of rows, as `component_change`
builds them (`c._json` per component, rows concatenated in order). -/
def flatJson (rows : List ActionRow) : List (List (String × FieldVal)) :=
  (rows.map ActionRow.components).flatten.map Component.json

/-- `Paginator.component_change`: `False` with no message; otherwise zip
the displayed leaf dicts with the freshly computed ones and report a
change as soon as one pair has a non-empty `Converter.difference`. -/
def Paginator.component_change (p : Paginator) : Bool :=
  match p.msgComponents with
  | none => false
  | some rows =>
      let current := flatJson rows
      let newJson := flatJson p.components
      (current.zip newJson).any fun pr => !(difference pr.1 pr.2).isEmpty

/-- The `disabled` attribute of a leaf component. -/
def Component.disabledAttr : Component → Option Bool
  | Component.button b => b.disabled
  | Component.select s => s.disabled

/-- Setting `component.disabled = True` on a leaf. -/
def Component.disableIt : Component → Component
  | Component.button b => Component.button { b with disabled := some true }
  | Component.select s => Component.select { s with disabled := some true }

/-- `Paginator.disabled_components`: the current control tree with every
leaf's `disabled` attribute set to `True`. -/
def Paginator.disabled_components (p : Paginator) : List ActionRow :=
  p.components.map fun row => ActionRow.mk (row.components.map Component.disableIt)

/-- The `components=` argument of the final `message.edit` issued by
`end_paginator`: `removed` models `components=None` (the
`removed_components()` result), `rows` a concrete control tree, and
`missing` the `MISSING` sentinel (field left untouched). -/
inductive EndEdit
  | removed
  | rows (rs : List ActionRow)
  | missing
deriving Repr

/-- `Paginator.end_paginator`:
`removed_components() if remove_after_timeout else disabled_components() if disable_after_timeout else MISSING`. -/
def Paginator.end_paginator (p : Paginator) : EndEdit :=
  if p.remove_after_timeout then EndEdit.removed
  else if p.disable_after_timeout then EndEdit.rows p.disabled_components
  else EndEdit.missing

/-- The outcome of running a pre- or post-edit hook: it either raises
`StopPaginator` or returns an `Optional[bool]`. -/
inductive HookRes
  | raiseStop
  | value (r : Option Bool)

/-- One scripted loop iteration: the inbound event together with the
behaviour of the configured hooks on it (`none` = the hook is not
configured, i.e. `func_before_edit` / `func_after_edit` is `None`). -/
structure ScriptStep where
  ev : Event
  preRes : Option HookRes := none
  postRes : Option HookRes := none

/-- The observable outcome of one iteration of the `run` loop. -/
structure IterResult where
  state : Paginator
  returned : Bool
  dispatched : Bool
  postHookRan : Bool

/-- One iteration of `Paginator.run` after an event arrives: store the
event in `component_ctx`; run the pre-edit hook (return `data()` on
`StopPaginator`, skip the iteration on an explicit `False`); dispatch
`component_logic`; re-render via `edit` (the displayed control tree
becomes the freshly computed one); set `prev_index`; run the post-edit
hook with the same stop/skip semantics. -/
def Paginator.runIter (p : Paginator) (st : ScriptStep) : IterResult :=
  let p0 : Paginator := { p with component_ctx := some st.ev }
  match st.preRes with
  | some HookRes.raiseStop => IterResult.mk p0 true false false
  | some (HookRes.value (some false)) => IterResult.mk p0 false false false
  | _ =>
      let p1 := p0.component_logic
      let p2 : Paginator := { p1 with msgComponents := some p1.components }
      let p3 : Paginator := { p2 with prev_index := p2.index }
      match st.postRes with
      | some HookRes.raiseStop => IterResult.mk p3 true true true
      | some (HookRes.value _) => IterResult.mk p3 false true true
      | none => IterResult.mk p3 false true false

/-! ### Concrete instances used in counterexamples and witnesses -/

/-- A two-page paginator with plain text pages, buttons only
(`use_select=False`, `extended_buttons=False`), as a base for concrete
evaluations. -/
def pageA : Page := Page.make (some "A")

/-- Second concrete page. -/
def pageB : Page := Page.make (some "B")

/-- Base two-page paginator: buttons only, id 7, at page 0. -/
def basePag : Paginator :=
  { pages := [pageA, pageB], use_select := false, use_index := false,
    extended_buttons := false, top := 1, id := 7 }

/-- The base paginator displaying its own freshly rendered control tree. -/
def pagRendered : Paginator := { basePag with msgComponents := some basePag.components }

/-- The rendered paginator after `index` moved to 1 (e.g. a `next`
click), so both buttons' disabled values flip in the new render. -/
def pagMoved : Paginator := { pagRendered with index := 1 }

/-- A `first` click event for paginator id 7. -/
def evFirst : Event := { custom_id := "first7" }

/-- A select event carrying the out-of-range 1-based value 5. -/
def evSelect5 : Event := { custom_id := "select7", values := [5] }

/-- The base paginator processing the out-of-range select event. -/
def pagSelect5 : Paginator := { basePag with component_ctx := some evSelect5 }

/-- An explicit 97-character title argument. -/
def longStr : String := String.mk (List.replicate 97 'a')

/-- A paginator with both buttons and select enabled, at page 0 of 2. -/
def pagFull : Paginator := { pages := [pageA, pageB], top := 1, id := 7 }

/-- A page-level custom button with id `mybtn`. -/
def customBtn : Button := { style := some 2, label := some "go", custom_id := some "mybtn" }

/-- A page whose callback consumes events on `mybtn` and returns page
index 0 (a valid index that is also falsy in Python). -/
def pageCb : Page :=
  Page.make (some "C") EmbedsArg.noEmbeds none
    (some (ActionRow.mk [Component.button customBtn]))
    (some (fun _ => some (0 : Int)))

/-- A click on the page-level custom button. -/
def evCustom : Event := { custom_id := "mybtn" }

/-- A paginator whose current page callback returns 0 on `evCustom` and
whose session-level custom callback returns 1. -/
def pagCb : Paginator :=
  { pages := [pageCb, pageB], top := 1, id := 7,
    custom_callback := some (fun _ => some (1 : Int)),
    component_ctx := some evCustom }

/-- The base paginator at page 1, about to process the `first` click. -/
def pagAt1 : Paginator := { basePag with component_ctx := some evFirst, index := 1 }

/-- A scripted iteration whose pre-edit hook raises `StopPaginator`. -/
def stepStop : ScriptStep := { ev := evFirst, preRes := some HookRes.raiseStop }

/-- A scripted iteration whose pre-edit hook returns `False`. -/
def stepSkip : ScriptStep := { ev := evFirst, preRes := some (HookRes.value (some false)) }

/-- The base paginator configured to remove components on timeout. -/
def pagRemove : Paginator :=
  { basePag with remove_after_timeout := true, disable_after_timeout := false }

/-- The base paginator configured to leave the message untouched on timeout. -/
def pagNone : Paginator := { basePag with disable_after_timeout := false }

/-- The base paginator with both post-timeout flags set. -/
def pagBoth : Paginator := { basePag with remove_after_timeout := true }

/-- A select event re-selecting page 1 (the current page of `pagFull`). -/
def evSelRound : Event := { custom_id := "select7", values := [1] }

/-- The `first` navigation button as `buttons_row` renders it for
`pagFull` (id 7, index 0). -/
def witBtn : Button :=
  { style := some 1, emoji := some (Emoji.mk "⏮️"), custom_id := some "first7",
    disabled := some true }

/-! ### Helper lemmas -/

theorem append_ne_of_head_ne (a b s t : String) (c d : Char) (ca cb : List Char)
    (ha : a.data = c :: ca) (hb : b.data = d :: cb) (hcd : c ≠ d) : a ++ s ≠ b ++ t := by
  intro h
  have h2 : (a ++ s).data = (b ++ t).data := congrArg String.data h
  rw [String.data_append, String.data_append, ha, hb] at h2
  injection h2 with h3 _
  exact hcd h3

theorem component_logic_first (p : Paginator) (ev : Event) (hc : p.component_ctx = some ev)
    (h : ev.custom_id = "first" ++ toString p.id) :
    p.component_logic = { p with index := 0 } := by
  have h1 := append_ne_of_head_ne "first" "select" (toString p.id) (toString p.id) 'f' 's'
    "irst".data "elect".data rfl rfl (by decide)
  simp [Paginator.component_logic, hc, h, h1]

theorem component_logic_prev (p : Paginator) (ev : Event) (hc : p.component_ctx = some ev)
    (h : ev.custom_id = "prev" ++ toString p.id) :
    p.component_logic = { p with index := max (p.index - 1) 0 } := by
  have h1 := append_ne_of_head_ne "prev" "select" (toString p.id) (toString p.id) 'p' 's'
    "rev".data "elect".data rfl rfl (by decide)
  have h2 := append_ne_of_head_ne "prev" "first" (toString p.id) (toString p.id) 'p' 'f'
    "rev".data "irst".data rfl rfl (by decide)
  simp [Paginator.component_logic, hc, h, h1, h2]

theorem component_logic_next (p : Paginator) (ev : Event) (hc : p.component_ctx = some ev)
    (h : ev.custom_id = "next" ++ toString p.id) :
    p.component_logic = { p with index := min (p.index + 1) p.top } := by
  have h1 := append_ne_of_head_ne "next" "select" (toString p.id) (toString p.id) 'n' 's'
    "ext".data "elect".data rfl rfl (by decide)
  have h2 := append_ne_of_head_ne "next" "first" (toString p.id) (toString p.id) 'n' 'f'
    "ext".data "irst".data rfl rfl (by decide)
  have h3 := append_ne_of_head_ne "next" "prev" (toString p.id) (toString p.id) 'n' 'p'
    "ext".data "rev".data rfl rfl (by decide)
  simp [Paginator.component_logic, hc, h, h1, h2, h3]

theorem component_logic_last (p : Paginator) (ev : Event) (hc : p.component_ctx = some ev)
    (h : ev.custom_id = "last" ++ toString p.id) :
    p.component_logic = { p with index := p.top } := by
  have h1 := append_ne_of_head_ne "last" "select" (toString p.id) (toString p.id) 'l' 's'
    "ast".data "elect".data rfl rfl (by decide)
  have h2 := append_ne_of_head_ne "last" "first" (toString p.id) (toString p.id) 'l' 'f'
    "ast".data "irst".data rfl rfl (by decide)
  have h3 := append_ne_of_head_ne "last" "prev" (toString p.id) (toString p.id) 'l' 'p'
    "ast".data "rev".data rfl rfl (by decide)
  have h4 := append_ne_of_head_ne "last" "next" (toString p.id) (toString p.id) 'l' 'n'
    "ast".data "ext".data rfl rfl (by decide)
  simp [Paginator.component_logic, hc, h, h1, h2, h3, h4]

theorem component_logic_select (p : Paginator) (ev : Event) (v : Int) (vs : List Int)
    (hc : p.component_ctx = some ev)
    (h : ev.custom_id = "select" ++ toString p.id) (hv : ev.values = v :: vs) :
    p.component_logic = { p with index := v - 1 } := by
  simp [Paginator.component_logic, hc, h, hv]

theorem component_logic_top (p : Paginator) : p.component_logic.top = p.top := by
  unfold Paginator.component_logic
  rcases p.component_ctx with _ | ev
  · rfl
  · dsimp only
    repeat' split <;> try rfl

theorem resInRange_bounds (res : Option Int) (n : Nat) (h : resInRange res n = true) :
    0 ≤ res.getD 0 ∧ res.getD 0 < (n : Int) := by
  cases res with
  | none => simp [resInRange] at h
  | some k => simp only [resInRange, Bool.and_eq_true, decide_eq_true_eq] at h; simpa using h

theorem component_logic_index_cases (p : Paginator) (ev : Event)
    (hc : p.component_ctx = some ev)
    (h0 : ev.custom_id ≠ "select" ++ toString p.id)
    (h1 : ev.custom_id ≠ "first" ++ toString p.id)
    (h2 : ev.custom_id ≠ "prev" ++ toString p.id)
    (h3 : ev.custom_id ≠ "next" ++ toString p.id)
    (h4 : ev.custom_id ≠ "last" ++ toString p.id) :
    p.component_logic.index = p.index ∨
      (0 ≤ p.component_logic.index ∧ p.component_logic.index < (p.pages.length : Int)) := by
  simp only [Paginator.component_logic, hc, h0, h1, h2, h3, h4, if_false]
  split
  · exact Or.inl rfl
  · split <;> split_ifs <;>
      first
      | exact Or.inl rfl
      | exact Or.inr (resInRange_bounds _ _ (by assumption))

theorem zip_any_iff {α β : Type} (f : α × β → Bool) (l1 : List α) (l2 : List β) :
    (l1.zip l2).any f = true ↔
      ∃ i a b, l1.get? i = some a ∧ l2.get? i = some b ∧ f (a, b) = true := by
  induction l1 generalizing l2 with
  | nil => simp
  | cons a l ih =>
      cases l2 with
      | nil => simp
      | cons b l2 =>
          simp only [List.zip_cons_cons, List.any_cons, Bool.or_eq_true, ih]
          constructor
          · rintro (hf | ⟨i, a', b', ha, hb, hf⟩)
            · exact ⟨0, a, b, rfl, rfl, hf⟩
            · exact ⟨i + 1, a', b', ha, hb, hf⟩
          · rintro ⟨i, a', b', ha, hb, hf⟩
            cases i with
            | zero =>
                simp only [List.get?] at ha hb
                cases ha; cases hb
                exact Or.inl hf
            | succ i => exact Or.inr ⟨i, a', b', ha, hb, hf⟩

theorem updButton_slot0 (p : Paginator) (b : Button) :
    p.updButton 0 b = { b with custom_id := some ("first" ++ toString p.id),
                               disabled := some (p.index == 0) } := by
  have hfi := append_ne_of_head_ne "first" "index" (toString p.id) (toString p.id) 'f' 'i'
    "irst".data "ndex".data rfl rfl (by decide)
  simp [Paginator.updButton, Paginator.custom_ids, hfi]

theorem updButton_slot1 (p : Paginator) (b : Button) :
    p.updButton 1 b = { b with custom_id := some ("prev" ++ toString p.id),
                               disabled := some (p.index == 0) } := by
  have hpf := append_ne_of_head_ne "prev" "first" (toString p.id) (toString p.id) 'p' 'f'
    "rev".data "irst".data rfl rfl (by decide)
  have hpi := append_ne_of_head_ne "prev" "index" (toString p.id) (toString p.id) 'p' 'i'
    "rev".data "ndex".data rfl rfl (by decide)
  simp [Paginator.updButton, Paginator.custom_ids, hpf, hpi]

theorem updButton_slot2 (p : Paginator) (b : Button) :
    p.updButton 2 b = { b with custom_id := some ("index" ++ toString p.id),
                               disabled := some true,
                               label := some p.placeholderText } := by
  have hif := append_ne_of_head_ne "index" "first" (toString p.id) (toString p.id) 'i' 'f'
    "ndex".data "irst".data rfl rfl (by decide)
  have hip := append_ne_of_head_ne "index" "prev" (toString p.id) (toString p.id) 'i' 'p'
    "ndex".data "rev".data rfl rfl (by decide)
  simp [Paginator.updButton, Paginator.custom_ids, hif, hip]

theorem updButton_slot3 (p : Paginator) (b : Button) :
    p.updButton 3 b = { b with custom_id := some ("next" ++ toString p.id),
                               disabled := some (p.index == p.top) } := by
  have hnf := append_ne_of_head_ne "next" "first" (toString p.id) (toString p.id) 'n' 'f'
    "ext".data "irst".data rfl rfl (by decide)
  have hnp := append_ne_of_head_ne "next" "prev" (toString p.id) (toString p.id) 'n' 'p'
    "ext".data "rev".data rfl rfl (by decide)
  have hni := append_ne_of_head_ne "next" "index" (toString p.id) (toString p.id) 'n' 'i'
    "ext".data "ndex".data rfl rfl (by decide)
  simp [Paginator.updButton, Paginator.custom_ids, hnf, hnp, hni]

theorem updButton_slot4 (p : Paginator) (b : Button) :
    p.updButton 4 b = { b with custom_id := some ("last" ++ toString p.id),
                               disabled := some (p.index == p.top) } := by
  have hlf := append_ne_of_head_ne "last" "first" (toString p.id) (toString p.id) 'l' 'f'
    "ast".data "irst".data rfl rfl (by decide)
  have hlp := append_ne_of_head_ne "last" "prev" (toString p.id) (toString p.id) 'l' 'p'
    "ast".data "rev".data rfl rfl (by decide)
  have hli := append_ne_of_head_ne "last" "index" (toString p.id) (toString p.id) 'l' 'i'
    "ast".data "ndex".data rfl rfl (by decide)
  simp [Paginator.updButton, Paginator.custom_ids, hlf, hlp, hli]

theorem navButtons_mem (p : Paginator) (b : Button) (h : b ∈ p.navButtons) :
    b = p.updButton 0 (dictGet p.buttons "first" (defaultButton "⏮️")) ∨
    b = p.updButton 1 (dictGet p.buttons "prev" (defaultButton "◀️")) ∨
    b = p.updButton 2 (dictGet p.buttons "index" { style := some 1, label := some p.placeholderText }) ∨
    b = p.updButton 3 (dictGet p.buttons "next" (defaultButton "▶️")) ∨
    b = p.updButton 4 (dictGet p.buttons "last" (defaultButton "⏭️")) := by
  by_cases hx : p.extended_buttons <;> by_cases hi : p.use_index <;>
    simp [Paginator.navButtons, hx, hi, List.enum] at h <;> tauto


/-! ### Claim theorems -/

/-- C2: For every session state with `0 ≤ index ≤ top`, dispatching a
navigation-button event through `component_logic` sets `index` to 0 on
a `first` event from any starting index, to `top` on `last`, to
`max(index-1, 0)` on `prev` and to `min(index+1, top)` on `next`, so
`prev`/`next` never move `index` below 0 or above `top`. -/
theorem C2_navigation_buttons (p : Paginator) (ev : Event)
    (hc : p.component_ctx = some ev) (hlo : 0 ≤ p.index) (hhi : p.index ≤ p.top) :
    (ev.custom_id = "first" ++ toString p.id → p.component_logic.index = 0) ∧
    (ev.custom_id = "last" ++ toString p.id → p.component_logic.index = p.top) ∧
    (ev.custom_id = "prev" ++ toString p.id →
      p.component_logic.index = max (p.index - 1) 0 ∧
      0 ≤ p.component_logic.index ∧ p.component_logic.index ≤ p.top) ∧
    (ev.custom_id = "next" ++ toString p.id →
      p.component_logic.index = min (p.index + 1) p.top ∧
      0 ≤ p.component_logic.index ∧ p.component_logic.index ≤ p.top) := by
  refine ⟨fun h => ?_, fun h => ?_, fun h => ?_, fun h => ?_⟩
  · rw [component_logic_first p ev hc h]
  · rw [component_logic_last p ev hc h]
  · rw [component_logic_prev p ev hc h]
    exact ⟨rfl, le_max_right _ 0, max_le (by omega) (by omega)⟩
  · rw [component_logic_next p ev hc h]
    exact ⟨rfl, le_min (by omega) (by omega), min_le_right _ _⟩

/-- Witness for C2 at the concrete paginator `pagAt1` and the `first`
click `evFirst`. -/
theorem C2_navigation_buttons_witness :
    0 ≤ pagAt1.index ∧ pagAt1.index ≤ pagAt1.top ∧
    ((evFirst.custom_id = "first" ++ toString pagAt1.id →
        pagAt1.component_logic.index = 0) ∧
      (evFirst.custom_id = "last" ++ toString pagAt1.id →
        pagAt1.component_logic.index = pagAt1.top) ∧
      (evFirst.custom_id = "prev" ++ toString pagAt1.id →
        pagAt1.component_logic.index = max (pagAt1.index - 1) 0 ∧
        0 ≤ pagAt1.component_logic.index ∧ pagAt1.component_logic.index ≤ pagAt1.top) ∧
      (evFirst.custom_id = "next" ++ toString pagAt1.id →
        pagAt1.component_logic.index = min (pagAt1.index + 1) pagAt1.top ∧
        0 ≤ pagAt1.component_logic.index ∧ pagAt1.component_logic.index ≤ pagAt1.top)) :=
  ⟨by decide, by decide, C2_navigation_buttons pagAt1 evFirst rfl (by decide) (by decide)⟩

/-- C5: in one iteration of the `run` loop, a pre-edit hook that raises
the stop signal makes `run` return the terminal result record
immediately, with no mutation beyond recording the inbound event, no
dispatch and no post-edit hook; a pre-edit hook returning `False`
discards the event and continues the loop, likewise skipping dispatch
and the post-edit hook. -/
theorem C5_hook_semantics (p : Paginator) (st : ScriptStep) :
    (st.preRes = some HookRes.raiseStop →
      p.runIter st =
        IterResult.mk { p with component_ctx := some st.ev } true false false) ∧
    (st.preRes = some (HookRes.value (some false)) →
      p.runIter st =
        IterResult.mk { p with component_ctx := some st.ev } false false false) := by
  constructor <;> intro h <;> simp [Paginator.runIter, h]

/-- Witness for C5: the stop script and the skip script on the base
paginator. -/
theorem C5_hook_semantics_witness :
    basePag.runIter stepStop =
      IterResult.mk { basePag with component_ctx := some stepStop.ev } true false false ∧
    basePag.runIter stepSkip =
      IterResult.mk { basePag with component_ctx := some stepSkip.ev } false false false :=
  ⟨(C5_hook_semantics basePag stepStop).1 rfl, (C5_hook_semantics basePag stepSkip).2 rfl⟩

/-- C9: on timeout, `end_paginator` issues the final edit according to
the post-timeout behaviour: with disable (and not remove) every leaf of
the final control tree is disabled, with remove the final edit carries
no components, and with neither the components field is left untouched. -/
theorem C9_timeout_behavior (p : Paginator) :
    (p.disable_after_timeout = true → p.remove_after_timeout = false →
      p.end_paginator = EndEdit.rows p.disabled_components ∧
      ∀ row ∈ p.disabled_components, ∀ c ∈ row.components, c.disabledAttr = some true) ∧
    (p.remove_after_timeout = true → p.end_paginator = EndEdit.removed) ∧
    (p.remove_after_timeout = false → p.disable_after_timeout = false →
      p.end_paginator = EndEdit.missing) := by
  refine ⟨fun hd hr => ⟨by simp [Paginator.end_paginator, hd, hr], ?_⟩,
          fun hr => by simp [Paginator.end_paginator, hr],
          fun hr hd => by simp [Paginator.end_paginator, hr, hd]⟩
  intro row hrow c hcpt
  simp only [Paginator.disabled_components, List.mem_map] at hrow
  obtain ⟨r0, _, rfl⟩ := hrow
  simp only [List.mem_map] at hcpt
  obtain ⟨c0, _, rfl⟩ := hcpt
  cases c0 <;> simp [Component.disableIt, Component.disabledAttr]

/-- Witness for C9: the three post-timeout configurations on concrete
paginators. -/
theorem C9_timeout_behavior_witness :
    (basePag.end_paginator = EndEdit.rows basePag.disabled_components ∧
      ∀ row ∈ basePag.disabled_components, ∀ c ∈ row.components, c.disabledAttr = some true) ∧
    pagRemove.end_paginator = EndEdit.removed ∧
    pagNone.end_paginator = EndEdit.missing :=
  ⟨(C9_timeout_behavior basePag).1 rfl rfl, (C9_timeout_behavior pagRemove).2.1 rfl,
   (C9_timeout_behavior pagNone).2.2 rfl rfl⟩

/-- C10: when both `remove_after_timeout` and `disable_after_timeout`
are set, removal takes precedence: `end_paginator` issues the final
edit with no controls, never with a disabled control tree. -/
theorem C10_remove_precedence (p : Paginator)
    (hr : p.remove_after_timeout = true) (hd : p.disable_after_timeout = true) :
    p.end_paginator = EndEdit.removed ∧ ∀ rs, p.end_paginator ≠ EndEdit.rows rs := by
  constructor
  · simp [Paginator.end_paginator, hr]
  · intro rs
    simp [Paginator.end_paginator, hr]

/-- Witness for C10 on a concrete paginator with both flags set. -/
theorem C10_remove_precedence_witness :
    pagBoth.end_paginator = EndEdit.removed ∧
    ∀ rs, pagBoth.end_paginator ≠ EndEdit.rows rs :=
  C10_remove_precedence pagBoth rfl rfl

/-- C3 counterexample: on `pagSelect5` (two pages, `top = 1`, valid
starting index 0), `component_logic` on a select event whose payload
value is 5 sets `index` to 4, leaving `[0, top]`, so the invariant does
not hold for arbitrary payload values. -/
theorem C3_counterexample :
    pagSelect5.top = (pagSelect5.pages.length : Int) - 1 ∧
    0 ≤ pagSelect5.index ∧ pagSelect5.index ≤ pagSelect5.top ∧
    pagSelect5.component_logic.index = 4 ∧
    ¬(pagSelect5.component_logic.index ≤ pagSelect5.component_logic.top) := by
  refine ⟨by decide, by decide, by decide, ?_, ?_⟩ <;> decide

/-- C3 amended: for every valid construction (`n ≥ 2`, `top = n-1`,
`index ∈ [0, top]`), `top` is unchanged by every execution of
`component_logic`, and `index` stays in `[0, top]` for every event,
provided any select event carries a valid 1-based page number as its
payload value (out-of-range select values escape the bounds). -/
theorem C3_amended (p : Paginator) (ev : Event)
    (hc : p.component_ctx = some ev)
    (hn : 2 ≤ p.pages.length)
    (htop : p.top = (p.pages.length : Int) - 1)
    (hlo : 0 ≤ p.index) (hhi : p.index ≤ p.top)
    (hsel : ∀ v vs, ev.custom_id = "select" ++ toString p.id → ev.values = v :: vs →
      1 ≤ v ∧ v ≤ (p.pages.length : Int)) :
    p.component_logic.top = p.top ∧
    0 ≤ p.component_logic.index ∧ p.component_logic.index ≤ p.component_logic.top := by
  rw [component_logic_top p]
  refine ⟨rfl, ?_⟩
  by_cases h0 : ev.custom_id = "select" ++ toString p.id
  · rcases hv : ev.values with _ | ⟨v, vs⟩
    · have hp : p.component_logic = p := by
        simp [Paginator.component_logic, hc, h0, hv]
      rw [hp]; exact ⟨hlo, hhi⟩
    · rw [component_logic_select p ev v vs hc h0 hv]
      obtain ⟨hv1, hv2⟩ := hsel v vs h0 hv
      exact ⟨(by omega : (0 : Int) ≤ v - 1), (by omega : v - 1 ≤ p.top)⟩
  · by_cases h1 : ev.custom_id = "first" ++ toString p.id
    · rw [component_logic_first p ev hc h1]
      exact ⟨le_refl 0, (by omega : (0 : Int) ≤ p.top)⟩
    · by_cases h2 : ev.custom_id = "prev" ++ toString p.id
      · rw [component_logic_prev p ev hc h2]
        exact ⟨le_max_right _ 0, max_le (by omega) (by omega)⟩
      · by_cases h3 : ev.custom_id = "next" ++ toString p.id
        · rw [component_logic_next p ev hc h3]
          exact ⟨le_min (by omega) (by omega), min_le_right _ _⟩
        · by_cases h4 : ev.custom_id = "last" ++ toString p.id
          · rw [component_logic_last p ev hc h4]
            exact ⟨(by omega : (0 : Int) ≤ p.top), le_refl p.top⟩
          · rcases component_logic_index_cases p ev hc h0 h1 h2 h3 h4 with he | ⟨hb1, hb2⟩
            · rw [he]; exact ⟨hlo, hhi⟩
            · exact ⟨hb1, by omega⟩

/-- Witness for C3 amended on the concrete `pagAt1`. -/
theorem C3_amended_witness :
    pagAt1.component_logic.top = pagAt1.top ∧
    0 ≤ pagAt1.component_logic.index ∧
    pagAt1.component_logic.index ≤ pagAt1.component_logic.top :=
  C3_amended pagAt1 evFirst rfl (by decide) (by decide) (by decide) (by decide)
    (fun v vs h _ => absurd h (by decide))

theorem length_pos_of_ne_empty (s : String) (h : s ≠ "") : 0 < s.length := by
  rcases Nat.eq_zero_or_pos s.length with h0 | h0
  · exact absurd (String.ext (List.length_eq_zero.mp h0)) h
  · exact h0

theorem ne_empty_of_length_pos (t : String) (h : 0 < t.length) : t ≠ "" := by
  intro he
  rw [he] at h
  exact absurd h (by decide)

theorem truncate_length (s : String) : (truncate s).length ≤ 96 := by
  unfold truncate
  split_ifs with h
  · rw [String.length_append, String.length_mk, List.length_take]
    have h3 : ("..." : String).length = 3 := rfl
    have hd : s.data.length = s.length := rfl
    omega
  · omega

theorem truncate_ne_empty (s : String) (h : s ≠ "") : truncate s ≠ "" := by
  apply ne_empty_of_length_pos
  unfold truncate
  split_ifs with hl
  · rw [String.length_append, String.length_mk, List.length_take]
    have h3 : ("..." : String).length = 3 := rfl
    omega
  · exact length_pos_of_ne_empty s h

theorem isEmpty_false_ne (t : String) (h : t.isEmpty = false) : t ≠ "" := by
  intro he
  rw [he] at h
  exact absurd h (by decide)

theorem firstEmbedTitle_spec (es : List Embed) :
    (firstEmbedTitle es).length ≤ 96 ∧ firstEmbedTitle es ≠ "" := by
  induction es with
  | nil => exact ⟨by decide, by decide⟩
  | cons e es ih =>
      unfold firstEmbedTitle
      rcases e.title with _ | t
      · exact ih
      · dsimp only
        split_ifs with ht
      -- fix cases below
        · exact ⟨truncate_length t, truncate_ne_empty t (isEmpty_false_ne t (by simpa using ht))⟩
        · exact ih

/-- C4 counterexample: an explicit 97-character title argument is
stored verbatim — `Page.__init__` never truncates the explicit `title`,
so the derived title exceeds 96 characters. -/
theorem C4_counterexample :
    (Page.make none EmbedsArg.noEmbeds (some longStr)).title = longStr ∧
    (Page.make none EmbedsArg.noEmbeds (some longStr)).title.length = 97 ∧
    ¬((Page.make none EmbedsArg.noEmbeds (some longStr)).title.length ≤ 96) := by
  refine ⟨?_, by decide, by decide⟩
  decide

/-- C4 amended: the title precedence is explicit non-empty title, then
content, then an embed's title, then `"No title"`; truncation to 93
characters plus `"..."` applies to the content-derived and
embed-derived titles, while an explicit title is used verbatim (even
beyond 96 characters); the derived title is always non-empty, and is at
most 96 characters whenever it does not come from the explicit title
argument. -/
theorem C4_title_derivation (content title : Option String) (embeds : EmbedsArg) :
    (optTruthy title = true → (Page.make content embeds title).title = title.getD "") ∧
    (optTruthy title = false → optTruthy content = true →
      (Page.make content embeds title).title = truncate (content.getD "")) ∧
    (optTruthy title = false → optTruthy content = false →
      embeds = EmbedsArg.noEmbeds → (Page.make content embeds title).title = "No title") ∧
    (∀ e, optTruthy title = false → optTruthy content = false → embeds = EmbedsArg.one e →
      (Page.make content embeds title).title =
        if optTruthy e.title then truncate (e.title.getD "") else "No title") ∧
    (Page.make content embeds title).title ≠ "" ∧
    (optTruthy title = false → (Page.make content embeds title).title.length ≤ 96) := by
  refine ⟨fun ht => ?_, fun ht hcnt => ?_, fun ht hcnt he => ?_, fun e ht hcnt he => ?_, ?_, fun ht => ?_⟩
  · simp [Page.make, deriveTitle, ht]
  · simp [Page.make, deriveTitle, ht, hcnt]
  · simp [Page.make, deriveTitle, ht, hcnt, he]
  · simp [Page.make, deriveTitle, ht, hcnt, he]
  · show deriveTitle title content embeds ≠ ""
    unfold deriveTitle
    split_ifs with h1 h2
    · rcases title with _ | t
      · simp [optTruthy] at h1
      · exact isEmpty_false_ne t (by simpa [optTruthy] using h1)
    · rcases content with _ | c
      · simp [optTruthy] at h2
      · exact truncate_ne_empty c (isEmpty_false_ne c (by simpa [optTruthy] using h2))
    · rcases embeds with _ | e | es
      · decide
      · dsimp only
        split_ifs with h3
        · rcases het : e.title with _ | t
          · simp [het, optTruthy] at h3
          · exact truncate_ne_empty t (isEmpty_false_ne t
              (by rw [het] at h3; simpa [optTruthy] using h3))
        · decide
      · rcases es with _ | ⟨e0, es⟩
        · decide
        · dsimp only
          split_ifs with h3
          · exact (firstEmbedTitle_spec (e0 :: es)).2
          · decide
  · show (deriveTitle title content embeds).length ≤ 96
    unfold deriveTitle
    rw [if_neg (by simp [ht])]
    split_ifs with h2
    · rcases content with _ | c
      · simp [optTruthy] at h2
      · exact truncate_length c
    · rcases embeds with _ | e | es
      · decide
      · dsimp only
        split_ifs with h3
        · rcases het : e.title with _ | t
          · simp [het, optTruthy] at h3
          · exact truncate_length t
        · decide
      · rcases es with _ | ⟨e0, es⟩
        · decide
        · dsimp only
          split_ifs with h3
          · exact (firstEmbedTitle_spec (e0 :: es)).1
          · decide

/-- Witness for C4 amended at a concrete content-derived title. -/
theorem C4_title_derivation_witness :
    optTruthy (none : Option String) = false ∧ optTruthy (some "A") = true ∧
    (Page.make (some "A") EmbedsArg.noEmbeds none).title = truncate "A" ∧
    (Page.make (some "A") EmbedsArg.noEmbeds none).title ≠ "" ∧
    (Page.make (some "A") EmbedsArg.noEmbeds none).title.length ≤ 96 :=
  ⟨by decide, by decide,
   (C4_title_derivation (some "A") none EmbedsArg.noEmbeds).2.1 rfl rfl,
   (C4_title_derivation (some "A") none EmbedsArg.noEmbeds).2.2.2.2.1,
   (C4_title_derivation (some "A") none EmbedsArg.noEmbeds).2.2.2.2.2 rfl⟩


/-- C7: dispatching a select event with 1-based chosen value `v` sets
`index` to `v - 1`; and the rendered select row has, at position
`index`, an option whose value is `index + 1`, so re-selecting the
current page's own option leaves `index` unchanged. -/
theorem C7_select_roundtrip (p : Paginator) (ev : Event)
    (hs : p.use_select = true) (hn : p.pages.length ≤ 25)
    (hlo : 0 ≤ p.index) (htop : p.top = (p.pages.length : Int) - 1)
    (hhi : p.index ≤ p.top)
    (hev : ev.custom_id = "select" ++ toString p.id) :
    (∀ v vs, ev.values = v :: vs → (p.withCtx ev).component_logic.index = v - 1) ∧
    (∃ sm opt,
      p.select_row = some (ActionRow.mk [Component.select sm]) ∧
      sm.options.get? p.index.toNat = some opt ∧
      opt.value = p.index + 1 ∧
      (p.withCtx (Event.mk ("select" ++ toString p.id) [opt.value] 0)).component_logic.index
        = p.index) := by
  constructor
  · intro v vs hv
    rw [component_logic_select (p.withCtx ev) ev v vs rfl hev hv]
  · have hlt : p.index.toNat < p.pages.length := by omega
    have hget : p.pages.get? p.index.toNat = some (p.pages.get ⟨p.index.toNat, hlt⟩) :=
      List.get?_eq_get hlt
    refine ⟨SelectMenu.mk
        ((List.enumFrom 1 p.pages).map fun pr =>
          SelectOption.mk (toString pr.1 ++ ": " ++ pr.2.title) (pr.1 : Int))
        ("select" ++ toString p.id) p.placeholderText 1 1 none, SelectOption.mk
        (toString (1 + p.index.toNat) ++ ": " ++ (p.pages.get ⟨p.index.toNat, hlt⟩).title)
        ((1 + p.index.toNat : Nat) : Int), ?_, ?_, ?_, ?_⟩
    · unfold Paginator.select_row
      rw [if_neg (by simp [hs]; omega)]
    · simp only [Paginator.select_row]
      rw [List.get?_map]
      rw [List.get?_enumFrom, hget]
      rfl
    · simp only []
      push_cast
      omega
    · show (p.withCtx
          (Event.mk ("select" ++ toString p.id) [((1 + p.index.toNat : Nat) : Int)] 0)).component_logic.index
            = p.index
      rw [component_logic_select
        (p.withCtx (Event.mk ("select" ++ toString p.id) [((1 + p.index.toNat : Nat) : Int)] 0))
        (Event.mk ("select" ++ toString p.id) [((1 + p.index.toNat : Nat) : Int)] 0)
        ((1 + p.index.toNat : Nat) : Int) [] rfl rfl rfl]
      show ((1 + p.index.toNat : Nat) : Int) - 1 = p.index
      push_cast
      omega

/-- Witness for C7: re-selecting page 1 on the concrete `pagFull`. -/
theorem C7_select_roundtrip_witness :
    pagFull.use_select = true ∧ pagFull.pages.length ≤ 25 ∧
    (pagFull.withCtx evSelRound).component_logic.index = 1 - 1 :=
  ⟨rfl, by decide,
   (C7_select_roundtrip pagFull evSelRound rfl (by decide) (by decide) (by decide)
      (by decide) (by decide)).1 1 [] rfl⟩

/-- C8 counterexample: on `pagCb` the current page's callback consumes
the `mybtn` event and returns the valid index 0 (which is adopted), yet
the session-level custom callback is still invoked — it returns 1, which
overrides the page callback's result — because the code gates the custom
callback on the page result being falsy, not on it being unconsumed. -/
theorem C8_counterexample :
    (pyGet pagCb.pages pagCb.index).map (fun pg => pg.run_callback evCustom) = some (some 0) ∧
    resInRange (some 0) pagCb.pages.length = true ∧
    pagCb.component_logic.index = 1 := by
  refine ⟨by decide, by decide, by decide⟩

/-- C8 amended: for an event matching no built-in role, the current
page's callback result is adopted iff it is a valid index; the
session-level custom callback is invoked exactly when the page
callback's result is falsy (`None`, `False` or `0`) — so it also runs,
and may override the index, when the page callback consumed the event by
returning 0, and it does not run when the page callback returned a
truthy out-of-range value. -/
theorem C8_custom_callback (p : Paginator) (ev : Event) (pg : Page)
    (hc : p.component_ctx = some ev)
    (h0 : ev.custom_id ≠ "select" ++ toString p.id)
    (h1 : ev.custom_id ≠ "first" ++ toString p.id)
    (h2 : ev.custom_id ≠ "prev" ++ toString p.id)
    (h3 : ev.custom_id ≠ "next" ++ toString p.id)
    (h4 : ev.custom_id ≠ "last" ++ toString p.id)
    (hpg : pyGet p.pages p.index = some pg) :
    (∀ k : Int, pg.run_callback ev = some k → k ≠ 0 →
      resInRange (some k) p.pages.length = true → p.component_logic.index = k) ∧
    (∀ k : Int, pg.run_callback ev = some k → k ≠ 0 →
      resInRange (some k) p.pages.length = false → p.component_logic.index = p.index) ∧
    (p.custom_callback = none →
      (resInRange (pg.run_callback ev) p.pages.length = true →
        p.component_logic.index = (pg.run_callback ev).getD 0) ∧
      (resInRange (pg.run_callback ev) p.pages.length = false →
        p.component_logic.index = p.index)) ∧
    (∀ f m, p.custom_callback = some f → resFalsy (pg.run_callback ev) = true →
      f ev = some m → resInRange (some m) p.pages.length = true →
      p.component_logic.index = m) := by
  simp only [Paginator.component_logic, hc, h0, h1, h2, h3, h4, if_false, hpg]
  refine ⟨?_, ?_, ?_, ?_⟩
  · intro k hk hk0 hr
    rcases hcc : p.custom_callback with _ | f <;>
      simp [hk, hr, hcc, resFalsy, hk0]
  · intro k hk hk0 hr
    rcases hcc : p.custom_callback with _ | f <;>
      simp [hk, hr, hcc, resFalsy, hk0]
  · intro hcc
    constructor <;> intro hr <;> simp [hcc, hr]
  · intro f m hcc hfl hfm hmr
    simp [hcc, hfl, hfm, hmr]

/-- Witness for C8 amended on the concrete `pagCb`. -/
theorem C8_custom_callback_witness :
    pagCb.component_logic.index = 1 :=
  (C8_custom_callback pagCb evCustom pageCb rfl (by decide) (by decide) (by decide)
      (by decide) (by decide) rfl).2.2.2 (fun _ => some 1) 1 rfl (by decide) rfl (by decide)

/-- C6: for every session state and every button of the rendered
navigation row — including caller-supplied per-role overrides, whose
identifier and disabled state are forcibly overwritten — `first` and
`prev` are disabled iff `index = 0`, `next` and `last` are disabled iff
`index = top`, and the index-label pseudo-button is always disabled. -/
theorem C6_button_disable_rule (p : Paginator) (b : Button)
    (hb : p.use_buttons = true) (hmem : b ∈ p.navButtons) :
    (∃ row, p.buttons_row = some row) ∧
    (b.custom_id = some ("first" ++ toString p.id) ∨ b.custom_id = some ("prev" ++ toString p.id) ∨
     b.custom_id = some ("index" ++ toString p.id) ∨ b.custom_id = some ("next" ++ toString p.id) ∨
     b.custom_id = some ("last" ++ toString p.id)) ∧
    ((b.custom_id = some ("first" ++ toString p.id) ∨ b.custom_id = some ("prev" ++ toString p.id)) →
      (b.disabled = some true ↔ p.index = 0)) ∧
    ((b.custom_id = some ("next" ++ toString p.id) ∨ b.custom_id = some ("last" ++ toString p.id)) →
      (b.disabled = some true ↔ p.index = p.top)) ∧
    (b.custom_id = some ("index" ++ toString p.id) → b.disabled = some true) := by
  have hfi := append_ne_of_head_ne "first" "index" (toString p.id) (toString p.id) 'f' 'i'
    "irst".data "ndex".data rfl rfl (by decide)
  have hfn := append_ne_of_head_ne "first" "next" (toString p.id) (toString p.id) 'f' 'n'
    "irst".data "ext".data rfl rfl (by decide)
  have hfl := append_ne_of_head_ne "first" "last" (toString p.id) (toString p.id) 'f' 'l'
    "irst".data "ast".data rfl rfl (by decide)
  have hpi := append_ne_of_head_ne "prev" "index" (toString p.id) (toString p.id) 'p' 'i'
    "rev".data "ndex".data rfl rfl (by decide)
  have hpn := append_ne_of_head_ne "prev" "next" (toString p.id) (toString p.id) 'p' 'n'
    "rev".data "ext".data rfl rfl (by decide)
  have hpl := append_ne_of_head_ne "prev" "last" (toString p.id) (toString p.id) 'p' 'l'
    "rev".data "ast".data rfl rfl (by decide)
  have hif := append_ne_of_head_ne "index" "first" (toString p.id) (toString p.id) 'i' 'f'
    "ndex".data "irst".data rfl rfl (by decide)
  have hip := append_ne_of_head_ne "index" "prev" (toString p.id) (toString p.id) 'i' 'p'
    "ndex".data "rev".data rfl rfl (by decide)
  have hin := append_ne_of_head_ne "index" "next" (toString p.id) (toString p.id) 'i' 'n'
    "ndex".data "ext".data rfl rfl (by decide)
  have hil := append_ne_of_head_ne "index" "last" (toString p.id) (toString p.id) 'i' 'l'
    "ndex".data "ast".data rfl rfl (by decide)
  have hnf := append_ne_of_head_ne "next" "first" (toString p.id) (toString p.id) 'n' 'f'
    "ext".data "irst".data rfl rfl (by decide)
  have hnp := append_ne_of_head_ne "next" "prev" (toString p.id) (toString p.id) 'n' 'p'
    "ext".data "rev".data rfl rfl (by decide)
  have hni := append_ne_of_head_ne "next" "index" (toString p.id) (toString p.id) 'n' 'i'
    "ext".data "ndex".data rfl rfl (by decide)
  have hlf := append_ne_of_head_ne "last" "first" (toString p.id) (toString p.id) 'l' 'f'
    "ast".data "irst".data rfl rfl (by decide)
  have hlp := append_ne_of_head_ne "last" "prev" (toString p.id) (toString p.id) 'l' 'p'
    "ast".data "rev".data rfl rfl (by decide)
  have hli := append_ne_of_head_ne "last" "index" (toString p.id) (toString p.id) 'l' 'i'
    "ast".data "ndex".data rfl rfl (by decide)
  constructor
  · rw [← Option.isSome_iff_exists]
    simp [Paginator.buttons_row, hb]
  rcases navButtons_mem p b hmem with rfl | rfl | rfl | rfl | rfl <;>
    simp [updButton_slot0, updButton_slot1, updButton_slot2, updButton_slot3, updButton_slot4,
      hfi, hfn, hfl, hpi, hpn, hpl, hif, hip, hin, hil, hnf, hnp, hni, hlf, hlp, hli]

/-- Witness for C6: the rendered `first` button of `pagFull`. -/
theorem C6_button_disable_rule_witness :
    witBtn ∈ pagFull.navButtons ∧ (witBtn.disabled = some true ↔ pagFull.index = 0) :=
  ⟨by decide,
   (C6_button_disable_rule pagFull witBtn rfl (by decide)).2.2.1 (Or.inl (by decide))⟩

theorem isEmpty_false_iff {α : Type} (l : List α) : (l.isEmpty = false) ↔ l ≠ [] := by
  cases l <;> simp

theorem filter_ne_nil_iff {α : Type} (q : α → Bool) (l : List α) :
    (l.filter q ≠ []) ↔ ∃ a ∈ l, q a = true := by
  constructor
  · intro h
    rcases hh : l.filter q with _ | ⟨x, xs⟩
    · exact absurd hh h
    · have hx : x ∈ l.filter q := hh ▸ List.mem_cons_self x xs
      rcases List.mem_filter.mp hx with ⟨hin, hq⟩
      exact ⟨x, hin, hq⟩
  · rintro ⟨a, ha, hq⟩ hnil
    have hmm : a ∈ l.filter q := List.mem_filter.mpr ⟨ha, hq⟩
    rw [hnil] at hmm
    exact absurd hmm (List.not_mem_nil a)

theorem difference_has_new_key (d1 d2 : List (String × FieldVal)) :
    ((!(difference d1 d2).isEmpty) = true) ↔ ∃ kv ∈ d2, kv.1 ∉ d1.map Prod.fst := by
  rw [Bool.not_eq_true', isEmpty_false_iff]
  unfold difference
  rw [filter_ne_nil_iff]
  constructor
  · rintro ⟨a, ha, hq⟩
    refine ⟨a, ha, ?_⟩
    simpa [List.contains, List.elem_iff] using hq
  · rintro ⟨a, ha, hq⟩
    exact ⟨a, ha, by simpa [List.contains, List.elem_iff] using hq⟩

/-- C1 amended: `component_change` compares the displayed control tree
with the freshly computed one leaf-by-leaf, positionally, and reports a
difference exactly when some field key present in a new leaf is absent
from the corresponding old leaf — differing values of a key present in
both are not reported; in particular it returns false when computed
twice over identical state. -/
theorem C1_render_diff (p : Paginator) (rows : List ActionRow)
    (hm : p.msgComponents = some rows) :
    (p.component_change = true ↔
      ∃ i d1 d2, (flatJson rows).get? i = some d1 ∧ (flatJson p.components).get? i = some d2 ∧
        ∃ kv ∈ d2, kv.1 ∉ d1.map Prod.fst) ∧
    (rows = p.components → p.component_change = false) := by
  have hcc : p.component_change = ((flatJson rows).zip (flatJson p.components)).any
      (fun pr => !(difference pr.1 pr.2).isEmpty) := by
    simp [Paginator.component_change, hm]
  constructor
  · rw [hcc, zip_any_iff]
    constructor
    · rintro ⟨i, d1, d2, hg1, hg2, hf⟩
      exact ⟨i, d1, d2, hg1, hg2, (difference_has_new_key d1 d2).mp hf⟩
    · rintro ⟨i, d1, d2, hg1, hg2, hset⟩
      exact ⟨i, d1, d2, hg1, hg2, (difference_has_new_key d1 d2).mpr hset⟩
  · intro heq
    rw [hcc, ← heq]
    cases hany : ((flatJson rows).zip (flatJson rows)).any
        (fun pr => !(difference pr.1 pr.2).isEmpty) with
    | false => rfl
    | true =>
        exfalso
        obtain ⟨i, d1, d2, hg1, hg2, hf⟩ := (zip_any_iff _ _ _).mp hany
        rw [hg1] at hg2
        obtain rfl : d1 = d2 := Option.some.inj hg2
        obtain ⟨kv, hkv, hnot⟩ := (difference_has_new_key d1 d1).mp hf
        exact hnot (List.mem_map_of_mem Prod.fst hkv)

/-- Witness for C1 amended: identical state twice yields no difference. -/
theorem C1_render_diff_witness :
    pagRendered.component_change = false :=
  (C1_render_diff pagRendered basePag.components rfl).2 rfl

/-- C1 counterexample: after `index` moves from 0 to 1 on the rendered
two-button paginator, the `disabled` value of the first leaf flips from
`true` to `false` between the displayed tree and the new one, yet
`component_change` returns false — value changes are never detected, so
the claim that a differing field counts as a difference fails. -/
theorem C1_counterexample :
    pagMoved.msgComponents = some pagRendered.components ∧
    pagMoved.index ≠ pagMoved.prev_index ∧
    ("disabled", FieldVal.bool true) ∈ ((flatJson pagRendered.components).get? 0).getD [] ∧
    ("disabled", FieldVal.bool false) ∈ ((flatJson pagMoved.components).get? 0).getD [] ∧
    pagMoved.component_change = false := by
  refine ⟨rfl, by decide, by decide, by decide, by decide⟩

end PaginatorModel
